import Mathlib

/-!
Shallow embedding of the certificate-handling module `pyxmpp2/cert.py`:
the `CertificateData` model, identity extraction (`get_jids`), the
verification procedures (`verify_server`, `verify_client`) and models of
the ASN.1 SubjectAltName / Subject-DN decoding loops, together with
theorems checking the module's specification against this embedding.
-/

namespace Cert

/-- Modelled from the spec: the JID value type is an external dependency of
this module (`pyxmpp2/jid.py` is not among the analysed sources).  The spec
describes it as a `local@domain/resource` value with construction-from-string
failing on malformed input, component accessors and a case-insensitive
domain-equality predicate; the domain is normalised on construction and
components are never empty strings. -/
structure JID where
  localPart : Option String
  domain : String
  resource : Option String
deriving DecidableEq

/-- Split a character list at the first occurrence of `sep`; `none` when
`sep` does not occur. -/
def splitOnFirst (sep : Char) : List Char → Option (List Char × List Char)
  | [] => none
  | c :: cs =>
    if c = sep then some ([], cs)
    else
      match splitOnFirst sep cs with
      | some (a, b) => some (c :: a, b)
      | none => none

/-- Modelled from the spec: JID construction from a string of the form
`local@domain/resource`, failing (`none`, the `JIDError` case, a
`ValueError` in Python) on malformed input: an empty domain, an empty local
part before `@`, an empty resource after `/`, or a stray `@` inside the
domain.  The domain is lowercased, as the case-insensitive domain semantics
of the spec require. -/
def JID.parse (s : String) : Option JID :=
  let cs := s.toList
  let bareRes : List Char × Option (List Char) :=
    match splitOnFirst '/' cs with
    | some (a, b) => (a, some b)
    | none => (cs, none)
  if bareRes.2 = some [] then none
  else
    let locDom : Option (List Char) × List Char :=
      match splitOnFirst '@' bareRes.1 with
      | some (a, b) => (some a, b)
      | none => (none, bareRes.1)
    if locDom.1 = some [] then none
    else if locDom.2 = [] then none
    else if locDom.2.contains '@' then none
    else
      some { localPart := locDom.1.map (fun l => String.mk l),
             domain := String.mk (locDom.2.map Char.toLower),
             resource := bareRes.2.map (fun r => String.mk r) }

/-- Modelled from the spec: the case-insensitive domain-equality predicate
`are_domains_equal` of `pyxmpp2/jid.py`. -/
def are_domains_equal (a b : String) : Bool :=
  a.toList.map Char.toLower = b.toList.map Char.toLower

/-- Python `str.startswith`, character-based. -/
def pyStartsWith (s pre2 : String) : Bool :=
  s.toList.take pre2.toList.length = pre2.toList

/-- Python string slicing `s[n:]`, character-based. -/
def pyDrop (s : String) (n : Nat) : String :=
  String.mk (s.toList.drop n)

/-- Python `c in s` membership of a character in a string. -/
def pyContains (s : String) (c : Char) : Bool :=
  s.toList.contains c

/-- The `alt_names` mapping: an association list from category name to the
list of values under that category, mirroring the Python `dict` of lists. -/
abbrev AltNames := List (String × List String)

/-- Key-presence test, the Python `key in dict`. -/
def hasKey : AltNames → String → Bool
  | [], _ => false
  | (k, _) :: rest, key => k = key || hasKey rest key

/-- Lookup with an empty-list default, the Python `dict.get(key, [])`. -/
def getValues : AltNames → String → List String
  | [], _ => []
  | (k, vs) :: rest, key => if k = key then vs else getValues rest key

/-- The `CertificateData` model: validation flag, subject DN, expiry,
common names and the alt-names mapping, exactly the attributes set by
`CertificateData.__init__` and the decoders. -/
structure CertificateData where
  validated : Bool
  subject_name : Option (List (List (String × String)))
  not_after : Option Nat
  common_names : Option (List String)
  alt_names : AltNames
deriving DecidableEq

/-- The state `CertificateData.__init__` leaves a fresh instance in, which
is also what the decoders return when no certificate was presented. -/
def certDataInit : CertificateData :=
  { validated := false, subject_name := none, not_after := none,
    common_names := none, alt_names := [] }

/-- The accumulation loop of `get_jids`: parse each candidate address,
skip parse failures (`JIDError` is caught and logged), append first
occurrences only. -/
def jidLoop : List JID → List String → List JID
  | result, [] => result
  | result, addr :: rest =>
    match JID.parse addr with
    | some jid =>
      if jid ∈ result then jidLoop result rest
      else jidLoop (result ++ [jid]) rest
    | none => jidLoop result rest

/-- The method `CertificateData.get_jids`: candidates come from the
`XmppAddr` and `DNS` alt-name categories when either key is present,
otherwise from the common names containing neither `@` nor `/` when
`common_names` is truthy, otherwise the result is empty. -/
def CertificateData.get_jids (cert : CertificateData) : List JID :=
  if hasKey cert.alt_names "XmppAddr" || hasKey cert.alt_names "DNS" then
    jidLoop [] (getValues cert.alt_names "XmppAddr" ++ getValues cert.alt_names "DNS")
  else
    match cert.common_names with
    | some cns =>
      if cns.isEmpty then []
      else jidLoop [] (cns.filter (fun a => !(pyContains a '@') && !(pyContains a '/')))
    | none => []

/-- The method `CertificateData.verify_jid_against_common_name`: true when
some common name parses as a JID equal to the requested one; false when
`common_names` is `None`, empty, or holds no parseable match. -/
def CertificateData.verify_jid_against_common_name (cert : CertificateData) (jid : JID) : Bool :=
  match cert.common_names with
  | none => false
  | some cns => cns.any (fun name => decide (JID.parse name = some jid))

/-- The method `CertificateData.verify_jid_against_srv_name`: true when
some `SRV` alt-name carries the `_<srv_type>.` prefix and its remainder
parses as a JID equal to the given one. -/
def CertificateData.verify_jid_against_srv_name (cert : CertificateData) (jid : JID)
    (srv_type : String) : Bool :=
  let srvPre := "_" ++ srv_type ++ "."
  (getValues cert.alt_names "SRV").any (fun srv =>
    pyStartsWith srv srvPre &&
      match JID.parse (pyDrop srv srvPre.toList.length) with
      | some srv_jid => decide (srv_jid = jid)
      | none => false)

/-- Exceptions that can escape `verify_server`: the uncaught `JIDError`
from parsing the requested server name, and the `NameError` from reading
the loop variable `jid` when the DNS/XmppAddr loop never bound it. -/
inductive PyErr where
  | jidError
  | nameError
deriving DecidableEq

/-- Outcome of the DNS/XmppAddr loop in `verify_server`. -/
inductive ScanOutcome where
  | matched
  | exhausted (lastJid : Option JID)
deriving DecidableEq

/-- The DNS/XmppAddr loop of `verify_server`: walk the concatenated name
list keeping the most recently parsed JID in the loop variable `jid`;
`matched` models the early `return True`, `exhausted lastJid` models
falling off the end with the final binding of `jid` (`none` when the
variable was never bound). -/
def scanAltNames (server_jid : JID) : List String → Option JID → ScanOutcome
  | [], lastJid => .exhausted lastJid
  | name :: rest, lastJid =>
    match JID.parse name with
    | none => scanAltNames server_jid rest lastJid
    | some jid =>
      if jid = server_jid then .matched
      else scanAltNames server_jid rest (some jid)

/-- The method `CertificateData.verify_server`: parse the requested name,
fall back to the common-name check when none of the `XmppAddr`, `DNS` and
`SRV` keys is present, otherwise scan the `DNS` and `XmppAddr` values and
finally, when `srv_type` is non-empty, run the SRV check on the leftover
loop variable `jid` (a `NameError` when it was never bound). -/
def CertificateData.verify_server (cert : CertificateData) (server_name : String)
    (srv_type : String) : Except PyErr Bool :=
  match JID.parse server_name with
  | none => .error .jidError
  | some server_jid =>
    if !hasKey cert.alt_names "XmppAddr" && !hasKey cert.alt_names "DNS"
        && !hasKey cert.alt_names "SRV" then
      .ok (cert.verify_jid_against_common_name server_jid)
    else
      match scanAltNames server_jid
          (getValues cert.alt_names "DNS" ++ getValues cert.alt_names "XmppAddr") none with
      | .matched => .ok true
      | .exhausted lastJid =>
        if srv_type.toList.isEmpty then .ok false
        else
          match lastJid with
          | none => .error .nameError
          | some jid => .ok (cert.verify_jid_against_srv_name jid srv_type)

instance : DecidableEq (Except PyErr Bool) := fun a b =>
  match a, b with
  | .ok x, .ok y => decidable_of_iff (x = y) (by simp)
  | .error x, .error y => decidable_of_iff (x = y) (by simp)
  | .ok _, .error _ => isFalse (by simp)
  | .error _, .ok _ => isFalse (by simp)

/-- Result of `verify_client`: the Python `False` (no usable candidate
JIDs), a returned JID, or `None` (no authorized name found). -/
inductive ClientVerdict where
  | failed
  | authorized (jid : JID)
  | notAuthorized
deriving DecidableEq

/-- Python truthiness of `jid.local`: `None` and the empty string are
falsy. -/
def localTruthy (jid : JID) : Bool :=
  match jid.localPart with
  | some s => !s.toList.isEmpty
  | none => false

/-- The domains loop of `verify_client`: the first candidate whose domain
equals one of `domains` under `are_domains_equal`; `None` when none
matches. -/
def clientDomainScan (domains : List String) : List JID → ClientVerdict
  | [] => .notAuthorized
  | jid :: rest =>
    if domains.any (fun domain => are_domains_equal jid.domain domain) then .authorized jid
    else clientDomainScan domains rest

/-- The method `CertificateData.verify_client`: keep the candidate JIDs
with a truthy local part; `False` when none remain; an explicitly
requested `client_jid` present among them is returned first; with no
`domains` filter the first candidate wins; otherwise the domains loop
decides. -/
def CertificateData.verify_client (cert : CertificateData) (client_jid : Option JID)
    (domains : Option (List String)) : ClientVerdict :=
  match cert.get_jids.filter localTruthy with
  | [] => .failed
  | j0 :: rest =>
    let jids := j0 :: rest
    let explicitHit : Option JID :=
      match client_jid with
      | some cj => if cj ∈ jids then some cj else none
      | none => none
    match explicitHit with
    | some cj => .authorized cj
    | none =>
      match domains with
      | none => .authorized j0
      | some ds => clientDomainScan ds jids

/-- An object identifier as its numeric component tuple. -/
abbrev OID := List Nat

/-- The private OID identifying the `XmppAddr` other-name form. -/
def XMPPADDR_OID : OID := [1, 3, 6, 1, 5, 5, 7, 8, 5]

/-- The private OID identifying the `SRVName` other-name form. -/
def SRVNAME_OID : OID := [1, 3, 6, 1, 5, 5, 7, 8, 7]

/-- The `DN_OIDS` table: the fixed mapping from attribute OID to symbolic
distinguished-name attribute name. -/
def DN_OIDS : List (OID × String) :=
  [([2, 5, 4, 41], "Name"),
   ([2, 5, 4, 4], "Surname"),
   ([2, 5, 4, 42], "GivenName"),
   ([2, 5, 4, 43], "Initials"),
   ([2, 5, 4, 3], "CommonName"),
   ([2, 5, 4, 7], "LocalityName"),
   ([2, 5, 4, 8], "StateOrProvinceName"),
   ([2, 5, 4, 10], "OrganizationName"),
   ([2, 5, 4, 11], "OrganizationalUnitName"),
   ([2, 5, 4, 12], "Title"),
   ([2, 5, 4, 6], "CountryName")]

/-- Lookup in the `DN_OIDS` table; `none` models `val_type not in DN_OIDS`. -/
def dnOidName (oid : OID) : Option String :=
  (DN_OIDS.find? (fun p => decide (p.1 = oid))).map Prod.snd

/-- The decoded representation of an X.509 `GeneralName` choice value: the
nine variants of the hand-rolled grammar.  String-valued variants carry the
result of `_decode_asn1_string` on their component (`none` models a
`UnicodeError`); `otherName` carries its `type-id` OID together with the
composed result of DER-decoding and string-decoding its `value`
component. -/
inductive GeneralName where
  | otherName (oid : OID) (value : Option String)
  | rfc822Name (value : Option String)
  | dNSName (value : Option String)
  | x400Address
  | directoryName
  | ediPartyName
  | uniformResourceIdentifier (value : Option String)
  | iPAddress
  | registeredID (oid : OID)
deriving DecidableEq

/-- Append a value to the list stored under `key`, the
`defaultdict(list)[key].append(value)` step: extend the existing entry in
place or add a new key at the end. -/
def altAppend : AltNames → String → String → AltNames
  | [], key, v => [(key, [v])]
  | (k, vs) :: rest, key, v =>
    if k = key then (k, vs ++ [v]) :: rest
    else (k, vs) :: altAppend rest key v

/-- One iteration of the `_decode_alt_names` loop on the current
`alt_names` mapping: append a `dNSName` under `DNS`, a
`uniformResourceIdentifier` under `URI`, an `otherName` with the XmppAddr
or SRVName OID under `XmppAddr` or `SRVName`; skip unknown other-name OIDs
and the unsupported variants; propagate a decode failure of an interpreted
value (the Python code has no handler for it there). -/
def decodeAltName (acc : AltNames) : GeneralName → Except Unit AltNames
  | .dNSName value =>
    match value with
    | some v => .ok (altAppend acc "DNS" v)
    | none => .error ()
  | .uniformResourceIdentifier value =>
    match value with
    | some v => .ok (altAppend acc "URI" v)
    | none => .error ()
  | .otherName oid value =>
    if oid = XMPPADDR_OID then
      match value with
      | some v => .ok (altAppend acc "XmppAddr" v)
      | none => .error ()
    else if oid = SRVNAME_OID then
      match value with
      | some v => .ok (altAppend acc "SRVName" v)
      | none => .error ()
    else .ok acc
  | _ => .ok acc

/-- The `_decode_alt_names` loop over the whole `GeneralNames` sequence. -/
def decodeAltNames : AltNames → List GeneralName → Except Unit AltNames
  | acc, [] => .ok acc
  | acc, n :: rest =>
    match decodeAltName acc n with
    | .ok acc2 => decodeAltNames acc2 rest
    | .error e => .error e

/-- Specification-side classification of a general name: the category the
spec says it is stored under, paired with its (possibly failed) decoded
value; `none` for the variants the spec says are discarded. -/
def classifyAltName : GeneralName → Option (String × Option String)
  | .dNSName value => some ("DNS", value)
  | .uniformResourceIdentifier value => some ("URI", value)
  | .otherName oid value =>
    if oid = XMPPADDR_OID then some ("XmppAddr", value)
    else if oid = SRVNAME_OID then some ("SRVName", value)
    else none
  | _ => none

/-- Whether the alt-name decoder accepts this element without raising: it
is either discarded or its interpreted value decodes. -/
def altNameOk (n : GeneralName) : Bool :=
  match classifyAltName n with
  | some (_, none) => false
  | _ => true

/-- The decoded value the spec expects to find under category `key` for a
given general name. -/
def classifiedValue (key : String) (n : GeneralName) : Option String :=
  match classifyAltName n with
  | some (k, some v) => if k = key then some v else none
  | _ => none

/-- An ASN.1 `AttributeTypeAndValue` as seen by `_decode_subject`: the
attribute OID and the result of decoding its `DirectoryString` value
(`none` models the caught `UnicodeError`). -/
structure AttrTypeAndValue where
  oid : OID
  value : Option String
deriving DecidableEq

/-- The body of the innermost `_decode_subject` loop, one
`AttributeTypeAndValue`: skip it when its OID is not in `DN_OIDS` or its
value fails to decode; otherwise record the (type, value) pair in the RDN
accumulator, also collecting common-name values. -/
def subjectAttrStep (ist : List String × List (String × String))
    (av : AttrTypeAndValue) : List String × List (String × String) :=
  match dnOidName av.oid with
  | none => ist
  | some tname =>
    match av.value with
    | none => ist
    | some v =>
      ((if tname = "CommonName" then ist.1 ++ [v] else ist.1),
        ist.2 ++ [(tname, v)])

/-- The body of the outer `_decode_subject` loop, one RDN: run the
attribute loop on a fresh `rdnss_list` and append the finished tuple to
`subject_name`. -/
def subjectRdnStep (st : List String × List (List (String × String)))
    (rdn : List AttrTypeAndValue) : List String × List (List (String × String)) :=
  let inner := rdn.foldl subjectAttrStep (st.1, [])
  (inner.1, st.2 ++ [inner.2])

/-- The `_decode_subject` loops: walk the RDN sequence accumulating, per
attribute, the symbolic type name and decoded value.  Returns the pair
`(common_names, subject_name)`. -/
def decodeSubject (subject : List (List AttrTypeAndValue)) :
    List String × List (List (String × String)) :=
  subject.foldl subjectRdnStep ([], [])

/-- Specification-side decoding of one subject attribute: its symbolic
name paired with its decoded value when the OID is in the table and the
value decodes, `none` otherwise. -/
def decodeAttr (av : AttrTypeAndValue) : Option (String × String) :=
  match dnOidName av.oid with
  | none => none
  | some tname =>
    match av.value with
    | none => none
    | some v => some (tname, v)

/-- Specification-side duplicate removal keeping the first occurrence of
each element. -/
def dedupKeepFirst : List JID → List JID
  | [] => []
  | j :: rest => j :: dedupKeepFirst (rest.filter (fun x => decide (x ≠ j)))
termination_by l => l.length
decreasing_by
  simp only [List.length_cons]
  exact Nat.lt_succ_of_le (List.length_filter_le _ _)

/-- Specification-side candidate address strings of `get_jids`, as the
spec words them: the `XmppAddr` values followed by the `DNS` values when
either key is present, otherwise the common names containing neither `@`
nor `/`, otherwise nothing. -/
def candidateAddrs (cert : CertificateData) : List String :=
  if hasKey cert.alt_names "XmppAddr" || hasKey cert.alt_names "DNS" then
    getValues cert.alt_names "XmppAddr" ++ getValues cert.alt_names "DNS"
  else
    match cert.common_names with
    | some cns => cns.filter (fun a => !(pyContains a '@') && !(pyContains a '/'))
    | none => []

/-- A certificate whose `DNS` alt-name does not match the server name
`example.com` while its `SRV` alt-name carries exactly that name under the
`_xmpp-client.` prefix. -/
def certStaleSrv : CertificateData :=
  { validated := true, subject_name := none, not_after := none,
    common_names := none,
    alt_names := [("DNS", ["other.com"]), ("SRV", ["_xmpp-client.example.com"])] }

/-- A certificate carrying only an `SRV` alt-name. -/
def certSrvOnly : CertificateData :=
  { validated := false, subject_name := none, not_after := none,
    common_names := none, alt_names := [("SRV", ["_xmpp-client.example.com"])] }

/-- A certificate with common names only: one unparsable entry, one
non-matching JID and the domain `example.com`. -/
def certCommonOnly : CertificateData :=
  { validated := true, subject_name := none, not_after := none,
    common_names := some ["x@", "bad@name", "example.com"], alt_names := [] }

/-- A certificate yielding the two candidate JIDs `b@x` and `a@x`. -/
def certTwoLocals : CertificateData :=
  { validated := true, subject_name := none, not_after := none,
    common_names := none, alt_names := [("XmppAddr", ["b@x", "a@x"])] }

/-- A certificate yielding the candidate JIDs `b@x` and `a@y`. -/
def certTwoDomains : CertificateData :=
  { validated := true, subject_name := none, not_after := none,
    common_names := none, alt_names := [("XmppAddr", ["b@x", "a@y"])] }

/-- A `GeneralNames` sequence exercising every interpreted category, a
duplicate entry, an unknown other-name OID and two discarded variants. -/
def altNamesSample : List GeneralName :=
  [.dNSName (some "a.example"), .rfc822Name none,
   .otherName XMPPADDR_OID (some "user@example.com"),
   .otherName [1, 2, 3] (some "ignored"),
   .otherName SRVNAME_OID (some "_xmpp-client.example.com"),
   .iPAddress, .uniformResourceIdentifier (some "https://a.example"),
   .dNSName (some "a.example")]

/-- C1: refuted.  The claim says the SRV comparison of `verify_server` is
made against the originally requested server JID, so that an `SRV`
alt-name `_xmpp-client.example.com` makes `verify_server("example.com",
"xmpp-client")` return true when the DNS/XmppAddr scan found no match.  On
`certStaleSrv` the scan fails (`other.com` is not `example.com`), the SRV
entry strips and parses exactly to the requested JID, and the direct SRV
check against the requested JID would succeed — yet `verify_server`
returns `False`, because the code passes the leftover loop variable (the
JID `other.com`) to the SRV check instead of the request. -/
theorem verify_server_srv_check_ignores_requested_jid :
    certStaleSrv.verify_server "example.com" "xmpp-client" = .ok false
    ∧ pyStartsWith "_xmpp-client.example.com" "_xmpp-client." = true
    ∧ JID.parse (pyDrop "_xmpp-client.example.com" ("_xmpp-client." : String).toList.length)
        = JID.parse "example.com"
    ∧ JID.parse "other.com" ≠ JID.parse "example.com"
    ∧ certStaleSrv.verify_jid_against_srv_name ⟨none, "example.com", none⟩ "xmpp-client"
        = true := by
  decide

/-- C2: when `alt_names` has the `SRV` key but the `DNS` and `XmppAddr`
value lists are empty and `srv_type` is non-empty, the DNS/XmppAddr loop
never binds its variable `jid`, and `verify_server` ends in the `NameError`
instead of returning a boolean. -/
theorem verify_server_nameError_on_srv_only (cert : CertificateData)
    (server_name srv_type : String) (server_jid : JID)
    (hp : JID.parse server_name = some server_jid)
    (hsrv : hasKey cert.alt_names "SRV" = true)
    (hdns : getValues cert.alt_names "DNS" = [])
    (hxmpp : getValues cert.alt_names "XmppAddr" = [])
    (hst : srv_type.toList ≠ []) :
    cert.verify_server server_name srv_type = .error .nameError := by
  unfold CertificateData.verify_server
  rw [hp]
  simp [hsrv, hdns, hxmpp, scanAltNames]
  simpa using hst

/-- Witness for C2: a concrete certificate with only an `SRV` alt-name
makes `verify_server` raise `NameError`. -/
theorem verify_server_nameError_on_srv_only_witness :
    certSrvOnly.verify_server "example.com" "xmpp-client" = .error .nameError :=
  verify_server_nameError_on_srv_only certSrvOnly "example.com" "xmpp-client"
    ⟨none, "example.com", none⟩ (by decide) (by decide) (by decide) (by decide) (by decide)

/-- C6: with no certificate presented the data object has `validated`
false and empty or `None` name fields, yields no JIDs, `verify_server`
returns `False` for every well-formed server name and service type, and
`verify_client` reports its unauthorized `False` result for all
arguments; none of these operations raises. -/
theorem no_certificate_all_negative :
    certDataInit.validated = false ∧ certDataInit.subject_name = none
    ∧ certDataInit.not_after = none ∧ certDataInit.common_names = none
    ∧ certDataInit.alt_names = [] ∧ certDataInit.get_jids = []
    ∧ (∀ server_name srv_type server_jid, JID.parse server_name = some server_jid →
        certDataInit.verify_server server_name srv_type = .ok false)
    ∧ (∀ client_jid domains, certDataInit.verify_client client_jid domains = .failed) := by
  refine ⟨rfl, rfl, rfl, rfl, rfl, rfl, ?_, ?_⟩
  · intro server_name srv_type server_jid hp
    unfold CertificateData.verify_server
    rw [hp]
    rfl
  · intro client_jid domains
    rfl

/-- Witness for C6: the no-certificate data refuses a concrete server
name. -/
theorem no_certificate_all_negative_witness :
    certDataInit.verify_server "example.com" "xmpp-client" = .ok false :=
  no_certificate_all_negative.2.2.2.2.2.2.1 "example.com" "xmpp-client"
    ⟨none, "example.com", none⟩ (by decide)

/-- C7: an explicitly requested `client_jid` present among the
local-part-bearing candidate JIDs is returned by `verify_client`, taking
precedence over the first-candidate default, whatever the `domains`
argument. -/
theorem verify_client_honors_requested_jid (cert : CertificateData) (cj : JID)
    (domains : Option (List String))
    (h : cj ∈ cert.get_jids.filter localTruthy) :
    cert.verify_client (some cj) domains = .authorized cj := by
  unfold CertificateData.verify_client
  cases hj : cert.get_jids.filter localTruthy with
  | nil => rw [hj] at h; cases h
  | cons j0 rest =>
    rw [hj] at h
    simp [h]

/-- Witness for C7: with candidates `[b@x, a@x]` and no domain filter,
requesting `a@x` returns `a@x`, not the first candidate `b@x`. -/
theorem verify_client_honors_requested_jid_witness :
    certTwoLocals.verify_client (some ⟨some "a", "x", none⟩) none
      = .authorized ⟨some "a", "x", none⟩ :=
  verify_client_honors_requested_jid certTwoLocals ⟨some "a", "x", none⟩ none (by decide)

/-- C10: `get_jids` branches on key presence, not on non-emptiness: a
present `XmppAddr` or `DNS` key whose value lists are empty yields the
empty result, whatever usable entries `common_names` holds. -/
theorem get_jids_empty_on_present_empty_keys (cns : List String) :
    (CertificateData.mk false none none (some cns) [("XmppAddr", [])]).get_jids = []
    ∧ (CertificateData.mk false none none (some cns) [("DNS", [])]).get_jids = []
    ∧ (CertificateData.mk false none none (some cns)
        [("XmppAddr", []), ("DNS", [])]).get_jids = [] :=
  ⟨rfl, rfl, rfl⟩

theorem any_decide_eq_decide_exists {α : Type} (l : List α) (p : α → Prop)
    [DecidablePred p] :
    (l.any fun a => decide (p a)) = decide (∃ a ∈ l, p a) := by
  induction l with
  | nil => simp
  | cons a t ih =>
    rw [List.any_cons, ih]
    by_cases hpa : p a
    · have hex : ∃ x ∈ a :: t, p x := ⟨a, List.mem_cons_self a t, hpa⟩
      simp [hpa, hex]
    · have hiff : (∃ x ∈ a :: t, p x) ↔ (∃ x ∈ t, p x) := by
        constructor
        · rintro ⟨x, hx, hpx⟩
          rcases List.mem_cons.mp hx with h1 | h1
          · exact absurd (h1 ▸ hpx) hpa
          · exact ⟨x, h1, hpx⟩
        · rintro ⟨x, hx, hpx⟩
          exact ⟨x, List.mem_cons_of_mem _ hx, hpx⟩
      simp [hpa, hiff]

/-- C5: with none of the `XmppAddr`, `DNS` and `SRV` keys present in
`alt_names`, `verify_server` falls back to the common-name check and
returns true exactly when some `common_names` entry parses to a JID equal
to the requested server JID (false when none matches, none parses, or the
field is `None`); and as soon as one of those keys is present the result
never depends on `common_names` at all. -/
theorem verify_server_common_name_fallback (cert : CertificateData)
    (server_name srv_type : String) (server_jid : JID)
    (hp : JID.parse server_name = some server_jid) :
    (hasKey cert.alt_names "XmppAddr" = false → hasKey cert.alt_names "DNS" = false →
      hasKey cert.alt_names "SRV" = false →
      cert.verify_server server_name srv_type =
        .ok (decide (∃ name ∈ cert.common_names.getD [],
          JID.parse name = some server_jid)))
    ∧ ((hasKey cert.alt_names "XmppAddr" || hasKey cert.alt_names "DNS"
          || hasKey cert.alt_names "SRV") = true →
      ∀ cns, CertificateData.verify_server
          { cert with common_names := cns } server_name srv_type
        = cert.verify_server server_name srv_type) := by
  constructor
  · intro h1 h2 h3
    unfold CertificateData.verify_server
    rw [hp]
    simp only [h1, h2, h3, Bool.not_false, Bool.and_self, if_pos rfl]
    unfold CertificateData.verify_jid_against_common_name
    cases hcn : cert.common_names with
    | none => simp
    | some cns => simp [any_decide_eq_decide_exists]
  · intro hk cns
    have hc : (!hasKey cert.alt_names "XmppAddr" && !hasKey cert.alt_names "DNS"
        && !hasKey cert.alt_names "SRV") = false := by
      cases hA : hasKey cert.alt_names "XmppAddr" <;>
        cases hB : hasKey cert.alt_names "DNS" <;>
          cases hC : hasKey cert.alt_names "SRV" <;> simp_all
    unfold CertificateData.verify_server
    rw [hp]
    simp only [CertificateData.verify_jid_against_srv_name, hc, Bool.false_eq_true,
      if_false]

/-- Witness for C5: a certificate with only common names (one unparsable,
one non-matching, one equal to the request) is accepted for
`example.com`. -/
theorem verify_server_common_name_fallback_witness :
    certCommonOnly.verify_server "example.com" "xmpp-client" = .ok true := by
  have h := (verify_server_common_name_fallback certCommonOnly "example.com" "xmpp-client"
      ⟨none, "example.com", none⟩ (by decide)).1 (by decide) (by decide) (by decide)
  rw [h]
  rfl

theorem clientDomainScan_eq_find (ds : List String) (jids : List JID) :
    clientDomainScan ds jids =
      match jids.find? (fun j => ds.any (fun d => are_domains_equal j.domain d)) with
      | some j => .authorized j
      | none => .notAuthorized := by
  induction jids with
  | nil => rfl
  | cons j rest ih =>
    by_cases hj : (ds.any (fun d => are_domains_equal j.domain d)) = true
    · simp [clientDomainScan, List.find?_cons_of_pos, hj]
    · simp only [Bool.not_eq_true] at hj
      rw [clientDomainScan, List.find?_cons_of_neg _ (by simp [hj]), if_neg (by simp [hj])]
      exact ih

/-- C8: `verify_client` considers only the candidates with a truthy local
part: with none left it returns the `False` result whatever the
arguments; and with a `domains` filter given and no applicable explicit
`client_jid`, it authorizes the first remaining candidate whose domain
equals an entry of `domains` under `are_domains_equal`, reporting the
not-authorized `None` when no candidate matches. -/
theorem verify_client_domain_filter (cert : CertificateData) (client_jid : Option JID) :
    (∀ domains, cert.get_jids.filter localTruthy = [] →
      cert.verify_client client_jid domains = .failed)
    ∧ (∀ ds, cert.get_jids.filter localTruthy ≠ [] →
      (∀ cj, client_jid = some cj → cj ∉ cert.get_jids.filter localTruthy) →
      cert.verify_client client_jid (some ds) =
        match (cert.get_jids.filter localTruthy).find?
            (fun j => ds.any (fun d => are_domains_equal j.domain d)) with
        | some j => .authorized j
        | none => .notAuthorized) := by
  constructor
  · intro domains h
    unfold CertificateData.verify_client
    rw [h]
  · intro ds hne hcj
    unfold CertificateData.verify_client
    cases hj : cert.get_jids.filter localTruthy with
    | nil => exact absurd hj hne
    | cons j0 rest =>
      cases hc : client_jid with
      | none => simp [clientDomainScan_eq_find]
      | some cj =>
        have hnotin : cj ∉ (j0 :: rest) := by
          have := hcj cj hc
          rw [hj] at this
          exact this
        simp [hnotin, clientDomainScan_eq_find]

/-- Witness for C8: with candidates `b@x` and `a@y`, no requested client
JID and the domain filter `["Y"]`, the first candidate whose domain
matches case-insensitively, `a@y`, is authorized. -/
theorem verify_client_domain_filter_witness :
    certTwoDomains.verify_client none (some ["Y"]) = .authorized ⟨some "a", "y", none⟩ := by
  have h := (verify_client_domain_filter certTwoDomains none).2 ["Y"] (by decide)
      (fun cj hcj => nomatch hcj)
  rw [h]
  rfl

theorem getValues_altAppend (m : AltNames) (key v k2 : String) :
    getValues (altAppend m key v) k2 =
      if k2 = key then getValues m k2 ++ [v] else getValues m k2 := by
  induction m with
  | nil =>
    by_cases h : k2 = key
    · subst h
      simp [altAppend, getValues]
    · have h2 : ¬key = k2 := fun hx => h hx.symm
      simp [altAppend, getValues, h, h2]
  | cons kv rest ih =>
    obtain ⟨k, vs⟩ := kv
    by_cases hk : k = key
    · subst hk
      by_cases h2 : k2 = k
      · subst h2
        simp [altAppend, getValues]
      · have h3 : ¬k = k2 := fun hx => h2 hx.symm
        simp [altAppend, getValues, h2, h3]
    · by_cases h2 : k2 = k
      · subst h2
        simp [altAppend, getValues, hk]
      · have h3 : ¬k = k2 := fun hx => h2 hx.symm
        simp [altAppend, getValues, hk, h3, ih]

theorem decodeAltName_eq_classify (acc : AltNames) (n : GeneralName) :
    decodeAltName acc n =
      match classifyAltName n with
      | none => .ok acc
      | some (_, none) => .error ()
      | some (k, some v) => .ok (altAppend acc k v) := by
  cases n with
  | otherName oid value =>
    by_cases h1 : oid = XMPPADDR_OID
    · cases value <;> simp [decodeAltName, classifyAltName, h1]
    · by_cases h2 : oid = SRVNAME_OID
      · cases value <;>
          simp [decodeAltName, classifyAltName, h1, h2,
            (by decide : ¬SRVNAME_OID = XMPPADDR_OID)]
      · simp [decodeAltName, classifyAltName, h1, h2]
  | rfc822Name value => rfl
  | dNSName value => cases value <;> rfl
  | x400Address => rfl
  | directoryName => rfl
  | ediPartyName => rfl
  | uniformResourceIdentifier value => cases value <;> rfl
  | iPAddress => rfl
  | registeredID oid => rfl

theorem decodeAltNames_ok (ns : List GeneralName) :
    ∀ acc : AltNames, (∀ n ∈ ns, altNameOk n = true) →
    ∃ m, decodeAltNames acc ns = .ok m
      ∧ ∀ key, getValues m key = getValues acc key ++ ns.filterMap (classifiedValue key) := by
  induction ns with
  | nil =>
    intro acc _
    exact ⟨acc, rfl, fun key => by simp [List.filterMap_nil]⟩
  | cons n rest ih =>
    intro acc h
    have hn := h n (List.mem_cons_self _ _)
    have hrest : ∀ x ∈ rest, altNameOk x = true :=
      fun x hx => h x (List.mem_cons_of_mem _ hx)
    cases hc : classifyAltName n with
    | none =>
      obtain ⟨m, hm, hg⟩ := ih acc hrest
      refine ⟨m, ?_, ?_⟩
      · rw [decodeAltNames, decodeAltName_eq_classify, hc]
        exact hm
      · intro key
        rw [hg key]
        simp [List.filterMap_cons, classifiedValue, hc]
    | some kv =>
      obtain ⟨k0, v0⟩ := kv
      cases v0 with
      | none =>
        rw [altNameOk, hc] at hn
        cases hn
      | some v =>
        obtain ⟨m, hm, hg⟩ := ih (altAppend acc k0 v) hrest
        refine ⟨m, ?_, ?_⟩
        · rw [decodeAltNames, decodeAltName_eq_classify, hc]
          exact hm
        · intro key
          rw [hg key, getValues_altAppend]
          by_cases hk : key = k0
          · subst hk
            simp [List.filterMap_cons, classifiedValue, hc]
          · have hk2 : ¬k0 = key := fun hx => hk hx.symm
            simp [hk, List.filterMap_cons, classifiedValue, hc, hk2]

/-- C3: over a `GeneralNames` sequence whose interpreted elements all
decode, `_decode_alt_names` succeeds and stores, per category, exactly the
`dNSName` values under `DNS`, the `uniformResourceIdentifier` values under
`URI`, and the XmppAddr- and SRVName-tagged other-names under `XmppAddr`
and `SRVName`, in encounter order without deduplication; every other
variant of the choice, and any other-name with an unknown OID, is
discarded without making the decode fail. -/
theorem decode_alt_names_classifies (ns : List GeneralName)
    (h : ∀ n ∈ ns, altNameOk n = true) (key : String) :
    Except.map (fun m => getValues m key) (decodeAltNames [] ns)
      = .ok (ns.filterMap (classifiedValue key)) := by
  obtain ⟨m, hm, hg⟩ := decodeAltNames_ok ns [] h
  rw [hm]
  simp [Except.map, hg key, getValues]

/-- Witness for C3: the sample sequence (with a duplicate DNS entry, an
unknown other-name OID and two unsupported variants) decodes, and its
`DNS` category keeps the duplicate in order. -/
theorem decode_alt_names_classifies_witness :
    Except.map (fun m => getValues m "DNS") (decodeAltNames [] altNamesSample)
      = .ok ["a.example", "a.example"] := by
  rw [decode_alt_names_classifies altNamesSample (by decide) "DNS"]
  rfl

theorem subjectAttrStep_eq (ist : List String × List (String × String))
    (av : AttrTypeAndValue) :
    subjectAttrStep ist av =
      match decodeAttr av with
      | none => ist
      | some (tname, v) =>
        ((if tname = "CommonName" then ist.1 ++ [v] else ist.1),
          ist.2 ++ [(tname, v)]) := by
  cases h1 : dnOidName av.oid with
  | none => simp [subjectAttrStep, decodeAttr, h1]
  | some tname =>
    cases h2 : av.value with
    | none => simp [subjectAttrStep, decodeAttr, h1, h2]
    | some v => simp [subjectAttrStep, decodeAttr, h1, h2]

theorem foldl_subjectAttrStep_snd (rdn : List AttrTypeAndValue) :
    ∀ cns acc, (rdn.foldl subjectAttrStep (cns, acc)).2
      = acc ++ rdn.filterMap decodeAttr := by
  induction rdn with
  | nil =>
    intro cns acc
    simp
  | cons av rest ih =>
    intro cns acc
    rw [List.foldl_cons, subjectAttrStep_eq]
    cases hd : decodeAttr av with
    | none => simp [ih, List.filterMap_cons, hd]
    | some tv =>
      obtain ⟨tname, v⟩ := tv
      rw [ih]
      simp [List.filterMap_cons, hd]

theorem foldl_subjectRdnStep_snd (subject : List (List AttrTypeAndValue)) :
    ∀ cns sn, (subject.foldl subjectRdnStep (cns, sn)).2
      = sn ++ subject.map (fun rdn => rdn.filterMap decodeAttr) := by
  induction subject with
  | nil =>
    intro cns sn
    simp
  | cons rdn rest ih =>
    intro cns sn
    rw [List.foldl_cons,
      show subjectRdnStep (cns, sn) rdn
        = ((rdn.foldl subjectAttrStep (cns, [])).1,
          sn ++ [(rdn.foldl subjectAttrStep (cns, [])).2]) from rfl,
      ih, foldl_subjectAttrStep_snd]
    simp

/-- C9: the subject decode keeps, inside every RDN, exactly the
attributes whose OID is in `DN_OIDS` and whose value decodes, as
(attribute-name, value) pairs in their original order, and omits the
unrecognized or undecodable ones; no attribute aborts the enclosing RDN
or the decode (the decode is a total function of the subject). -/
theorem decode_subject_keeps_recognized_in_order
    (subject : List (List AttrTypeAndValue)) :
    (decodeSubject subject).2 = subject.map (fun rdn => rdn.filterMap decodeAttr) := by
  unfold decodeSubject
  rw [foldl_subjectRdnStep_snd]
  simp

theorem mem_of_mem_dedupKeepFirst (a : JID) :
    ∀ l : List JID, a ∈ dedupKeepFirst l → a ∈ l := by
  intro l
  induction l using dedupKeepFirst.induct with
  | case1 => simp [dedupKeepFirst]
  | case2 j rest ih =>
    intro h
    simp only [dedupKeepFirst] at h
    rcases List.mem_cons.mp h with h1 | h1
    · exact h1 ▸ List.mem_cons_self _ _
    · exact List.mem_cons_of_mem _ (List.mem_of_mem_filter (ih h1))

theorem nodup_dedupKeepFirst : ∀ l : List JID, (dedupKeepFirst l).Nodup := by
  intro l
  induction l using dedupKeepFirst.induct with
  | case1 => simp [dedupKeepFirst]
  | case2 j rest ih =>
    simp only [dedupKeepFirst]
    refine List.nodup_cons.mpr ⟨?_, ih⟩
    intro hmem
    have h1 := mem_of_mem_dedupKeepFirst j _ hmem
    have h2 := List.of_mem_filter h1
    simp at h2

theorem jidLoop_eq_dedup (addrs : List String) :
    ∀ acc : List JID, jidLoop acc addrs
      = acc ++ dedupKeepFirst
          ((addrs.filterMap JID.parse).filter (fun j => decide (j ∉ acc))) := by
  induction addrs with
  | nil =>
    intro acc
    simp [jidLoop, dedupKeepFirst]
  | cons addr rest ih =>
    intro acc
    simp only [jidLoop]
    cases hp : JID.parse addr with
    | none => simp [List.filterMap_cons, hp, ih]
    | some j =>
      by_cases hj : j ∈ acc
      · simp [List.filterMap_cons, hp, List.filter_cons, hj, ih]
      · have hred : (match some j with
            | some jid =>
              if jid ∈ acc then jidLoop acc rest else jidLoop (acc ++ [jid]) rest
            | none => jidLoop acc rest)
            = if j ∈ acc then jidLoop acc rest else jidLoop (acc ++ [j]) rest := rfl
        rw [hred, if_neg hj, ih (acc ++ [j])]
        have hfil : ∀ L : List JID,
            L.filter (fun x => decide (x ∉ acc ++ [j]))
              = (L.filter (fun x => decide (x ∉ acc))).filter
                  (fun x => decide (x ≠ j)) := by
          intro L
          rw [List.filter_filter]
          apply List.filter_congr
          intro x _
          by_cases h1 : x ∈ acc <;> by_cases h2 : x = j <;>
            simp [h1, h2, List.mem_append]
        have hstep : ((addr :: rest).filterMap JID.parse).filter
              (fun x => decide (x ∉ acc))
            = j :: ((rest.filterMap JID.parse).filter (fun x => decide (x ∉ acc))) := by
          simp [List.filterMap_cons, hp, List.filter_cons, hj]
        rw [hfil, hstep]
        simp only [dedupKeepFirst]
        simp

/-- C4: `get_jids` returns exactly the spec's candidate address strings —
the `XmppAddr` values then the `DNS` values when either key is present,
otherwise the common names containing neither `@` nor `/`, otherwise
nothing — each parsed as a JID with parse failures skipped (never
raising), in first-seen order; and the result has no duplicate JIDs. -/
theorem get_jids_parses_candidates (cert : CertificateData) :
    cert.get_jids = dedupKeepFirst ((candidateAddrs cert).filterMap JID.parse)
    ∧ cert.get_jids.Nodup := by
  have hfilnil : ∀ L : List JID,
      L.filter (fun x => decide (x ∉ ([] : List JID))) = L := by
    intro L
    exact List.filter_eq_self.mpr (fun a _ => by simp)
  have hmain : cert.get_jids
      = dedupKeepFirst ((candidateAddrs cert).filterMap JID.parse) := by
    by_cases hk : (hasKey cert.alt_names "XmppAddr" || hasKey cert.alt_names "DNS") = true
    · simp only [CertificateData.get_jids, candidateAddrs, if_pos hk]
      rw [jidLoop_eq_dedup, hfilnil, List.nil_append]
    · cases hcn : cert.common_names with
      | none => simp [CertificateData.get_jids, candidateAddrs, hk, hcn, dedupKeepFirst]
      | some cns =>
        by_cases he : cns.isEmpty
        · have hnil : cns = [] := List.isEmpty_iff.mp he
          subst hnil
          simp [CertificateData.get_jids, candidateAddrs, hk, hcn, dedupKeepFirst]
        · simp only [CertificateData.get_jids, candidateAddrs, if_neg hk, hcn, he]
          rw [if_neg (by simp), jidLoop_eq_dedup, hfilnil, List.nil_append]
  exact ⟨hmain, hmain ▸ nodup_dedupKeepFirst _⟩

end Cert
